import Mathlib

/-!
Verification development for the denu-website client-side core:
the Language Resolver (js/language-manager.js) and the Environment &
Link Resolver (js/environment-redirect.js).

The JavaScript is shallowly embedded as pure Lean functions.  Strings
are Lean `String`s; JavaScript string truthiness is modelled by the
test `s = ""` (both `null`/`undefined` and the empty string are falsy,
and every absent attribute/storage entry is modelled as `""`).  String
scanning primitives (`split`, `startsWith`, `trim`, ...) are defined
over the underlying character list so that concrete witnesses evaluate
by `decide`.
-/

namespace Denu

/-- Split a character list at each `'.'`, mirroring JS `host.split('.')`. -/
def splitDotAux (acc : List Char) : List Char → List String
  | [] => [String.mk acc.reverse]
  | c :: rest =>
    if c = '.' then String.mk acc.reverse :: splitDotAux [] rest
    else splitDotAux (c :: acc) rest

/-- JS `s.split('.')`. -/
def splitDot (s : String) : List String := splitDotAux [] s.data

/-- JS `Array.prototype.join('.')`. -/
def joinDot : List String → String
  | [] => ""
  | [s] => s
  | s :: rest => s ++ "." ++ joinDot rest

/-- JS `s.startsWith(p)` (used to model the `/^dev\./` style anchored regexes). -/
def strStartsWith (s p : String) : Bool := p.data.isPrefixOf s.data

/-- JS `s.includes(c)` for a single character (used for `url.includes('?')`). -/
def strContainsChar (s : String) (c : Char) : Bool := s.data.contains c

/-- Test that a string is non-empty and consists only of decimal digits,
modelling one `\d+` group of the IPv4 regex. -/
def allDigits1 (s : String) : Bool := !s.data.isEmpty && s.data.all Char.isDigit

/-- JS regex `/^\d+\.\d+\.\d+\.\d+$/.test(host)`: exactly four dot-separated
non-empty digit groups. -/
def isIPv4 (host : String) : Bool :=
  match splitDot host with
  | [a, b, c, d] => allDigits1 a && allDigits1 b && allDigits1 c && allDigits1 d
  | _ => false

/-- JS `'en-US'.split('-')[0]`: the primary language subtag. -/
def primarySubtag (s : String) : String :=
  String.mk (s.data.takeWhile (fun c => c ≠ '-'))

/-- JS `String.prototype.trim()`: drop leading and trailing whitespace. -/
def jsTrim (s : String) : String :=
  String.mk (((s.data.dropWhile Char.isWhitespace).reverse.dropWhile
      Char.isWhitespace).reverse)

/-!
Browser-context inputs of js/environment-redirect.js.  Every signal the
script reads (location, query string, overrides, storage, the language
manager's current selection) is a field; `""` models an absent value.
-/

/-- Read-only browser context consumed by the EnvironmentRedirect class. -/
structure BrowserState where
  hostname : String
  port : String
  protocol : String
  searchFlutterOrigin : String
  searchFlutterPort : String
  searchLang : String
  windowFlutterLocalOrigin : String
  storageFlutterLocalOrigin : String
  metaFlutterLocalOrigin : String
  lmCurrentLanguage : String
  storageLanguage : String
  deriving Repr, DecidableEq

/-- JS `window.location.host`: hostname plus `:port` when a port is present. -/
def BrowserState.host (bs : BrowserState) : String :=
  if bs.port = "" then bs.hostname else bs.hostname ++ ":" ++ bs.port

/-- EnvironmentRedirect.detectEnvironment: classify the hostname into one of
local, dev, qa, uat, prod. -/
def detectEnvironment (bs : BrowserState) : String :=
  let host := bs.hostname
  if host = "localhost" ∨ host = "127.0.0.1" then "local"
  else if strStartsWith host "dev." then "dev"
  else if strStartsWith host "qa." then "qa"
  else if strStartsWith host "uat." then "uat"
  else "prod"

/-- EnvironmentRedirect.getRootDomain: the full hostname for `localhost` and
bare IPv4 addresses or when there are at most two labels, otherwise the last
two dot-separated labels. -/
def getRootDomain (bs : BrowserState) : String :=
  let host := bs.hostname
  let parts := splitDot host
  if host = "localhost" ∨ isIPv4 host then host
  else if parts.length ≤ 2 then host
  else joinDot (parts.drop (parts.length - 2))

/-- EnvironmentRedirect.getLocalOverrideOriginSync: first truthy override
among window global, localStorage, meta tag, `flutter_origin` URL parameter,
and `flutter_port` URL parameter (combined with localhost). -/
def getLocalOverrideOriginSync (bs : BrowserState) : Option String :=
  if bs.windowFlutterLocalOrigin ≠ "" then some bs.windowFlutterLocalOrigin
  else if bs.storageFlutterLocalOrigin ≠ "" then some bs.storageFlutterLocalOrigin
  else if bs.metaFlutterLocalOrigin ≠ "" then some bs.metaFlutterLocalOrigin
  else if bs.searchFlutterOrigin ≠ "" then some bs.searchFlutterOrigin
  else if bs.searchFlutterPort ≠ "" then
    some (bs.protocol ++ "//localhost:" ++ bs.searchFlutterPort)
  else none

/-- Conventional web-server ports checked by getFlutterBase in the local
environment. -/
def conventionalPorts : List String := ["80", "443", "8080", "8081", "3000", "5000", "5500"]

/-- Same-origin URL `protocol + '//' + host`. -/
def sameOrigin (bs : BrowserState) : String := bs.protocol ++ "//" ++ bs.host

/-- EnvironmentRedirect.getFlutterBase together with the console lines it
emits, so that the diagnostic warning of the local fallback path is
observable. -/
def getFlutterBaseWithLog (bs : BrowserState) : String × List String :=
  let env := detectEnvironment bs
  let root := getRootDomain bs
  if env = "local" then
    match getLocalOverrideOriginSync bs with
    | some override =>
      (override, ["[EnvironmentRedirect] Using override origin: " ++ override])
    | none =>
      if bs.port ≠ "" ∧ ¬ (conventionalPorts.contains bs.port) then
        (sameOrigin bs,
         ["[EnvironmentRedirect] Already on Flutter dev server: " ++ sameOrigin bs])
      else
        (sameOrigin bs,
         ["[EnvironmentRedirect] No Flutter origin configured for local development!",
          "[EnvironmentRedirect] Please set FLUTTER_LOCAL_ORIGIN or use ?flutter_port=XXXX parameter",
          "[EnvironmentRedirect] Using fallback same origin: " ++ sameOrigin bs])
  else
    let pfx := if env = "prod" then "" else env ++ "."
    let url := "https://" ++ pfx ++ "app." ++ root
    (url, ["[EnvironmentRedirect] Using environment URL: " ++ url])

/-- EnvironmentRedirect.getFlutterBase (return value only). -/
def getFlutterBase (bs : BrowserState) : String := (getFlutterBaseWithLog bs).1

/-- EnvironmentRedirect.getCurrentLanguage: language manager selection, then
the `lang` URL parameter, then stored language, then `'en'`. -/
def getCurrentLanguage (bs : BrowserState) : String :=
  if bs.lmCurrentLanguage ≠ "" then bs.lmCurrentLanguage
  else if bs.searchLang ≠ "" then bs.searchLang
  else if bs.storageLanguage ≠ "" then bs.storageLanguage
  else "en"

/-- Route-path normalisation done by getFlutterUrl:
`routePath ? (routePath.startsWith('/') ? routePath : '/' + routePath) : '/'`. -/
def normalizedRoutePath (routePath : String) : String :=
  if routePath = "" then "/"
  else if strStartsWith routePath "/" then routePath
  else "/" ++ routePath

/-- EnvironmentRedirect.getFlutterUrl: base plus normalised route path, with
`lang=<code>` appended when the current language is truthy and not `'en'`. -/
def getFlutterUrl (bs : BrowserState) (routePath : String) : String :=
  let base := getFlutterBase bs
  let path := normalizedRoutePath routePath
  let url := base ++ path
  let lang := getCurrentLanguage bs
  if lang ≠ "" ∧ lang ≠ "en" then
    url ++ (if strContainsChar url '?' then "&" else "?") ++ "lang=" ++ lang
  else url

end Denu

namespace Denu

/-- Association-list lookup modelling JS object property access `obj[key]`. -/
def lookupAssoc {α : Type} : List (String × α) → String → Option α
  | [], _ => none
  | p :: rest, k => if p.1 = k then some p.2 else lookupAssoc rest k

/-- English catalog of LanguageManager.loadTranslations. -/
def enTable : List (String × String) := [
  ("nav.home", "Home"),
  ("nav.products", "Products"),
  ("nav.developers", "Developers"),
  ("nav.resources", "Resources"),
  ("nav.api", "API"),
  ("nav.dashboard", "Dashboard"),
  ("nav.docs", "Documentation"),
  ("nav.sdk", "SDKs"),
  ("nav.about", "About Us"),
  ("nav.pricing", "Pricing"),
  ("nav.contact", "Contact Us"),
  ("nav.sign-in", "Login"),
  ("nav.sign-up", "Get Started for Free"),
  ("nav.request-demo", "Request Demo"),
  ("nav.discover", "Discover Places"),
  ("footer.products", "Products"),
  ("footer.developers", "Developers"),
  ("footer.resources", "Resources"),
  ("footer.description", "AI-powered location-based discovery platform that helps you find amazing places around you. Discover restaurants, cafes, attractions, and hidden gems with intelligent recommendations."),
  ("footer.company", "Built by"),
  ("footer.company-desc", "Denu is an innovative location discovery platform designed to revolutionize how people explore their surroundings."),
  ("footer.privacy", "Privacy Policy"),
  ("footer.terms", "Terms of Service"),
  ("footer.copyright", "All rights reserved."),
  ("home.hero.title", "Discover Amazing Places Around You"),
  ("home.hero.subtitle", "Find the best restaurants, cafes, attractions, and hidden gems in your area with AI-powered recommendations."),
  ("home.hero.cta", "Start Exploring"),
  ("home.hero.learn-more", "Learn More"),
  ("home.features.title", "Why Choose Denu?"),
  ("home.features.discovery.title", "Smart Discovery"),
  ("home.features.discovery.desc", "AI-powered recommendations based on your preferences and location."),
  ("home.features.local.title", "Local Expertise"),
  ("home.features.local.desc", "Discover hidden gems and local favorites that tourists miss."),
  ("home.features.reviews.title", "Real Reviews"),
  ("home.features.reviews.desc", "Read authentic reviews from real people who have been there."),
  ("about.hero.title", "About Denu"),
  ("about.hero.subtitle", "We\u0027re revolutionizing how people discover amazing places around them."),
  ("about.mission.title", "Our Mission"),
  ("about.mission.desc", "To help people discover the best places around them through intelligent recommendations and local insights."),
  ("about.vision.title", "Our Vision"),
  ("about.vision.desc", "A world where everyone can easily find and enjoy the best experiences in their local area."),
  ("contact.hero.title", "Get in Touch"),
  ("contact.hero.subtitle", "Have questions or feedback? We\u0027d love to hear from you."),
  ("contact.form.name", "Your Name"),
  ("contact.form.email", "Email Address"),
  ("contact.form.message", "Message"),
  ("contact.form.submit", "Send Message"),
  ("privacy.title", "Privacy Policy"),
  ("privacy.intro", "Your privacy is important to us. This policy explains how we collect, use, and protect your information."),
  ("privacy.collection.title", "Information We Collect"),
  ("privacy.collection.desc", "We collect information you provide directly to us and information automatically collected when you use our service."),
  ("privacy.use.title", "How We Use Your Information"),
  ("privacy.use.desc", "We use your information to provide, maintain, and improve our services."),
  ("terms.title", "Terms of Service"),
  ("terms.intro", "These terms govern your use of our service. By using Denu, you agree to these terms."),
  ("terms.acceptance.title", "Acceptance of Terms"),
  ("terms.acceptance.desc", "By accessing or using our service, you agree to be bound by these terms."),
  ("terms.use.title", "Use of Service"),
  ("terms.use.desc", "You may use our service for lawful purposes only and in accordance with these terms.")
]

/-- Persian catalog of LanguageManager.loadTranslations. -/
def faTable : List (String × String) := [
  ("nav.home", "خانه"),
  ("nav.products", "محصولات"),
  ("nav.developers", "توسعه‌دهندگان"),
  ("nav.resources", "منابع"),
  ("nav.api", "API"),
  ("nav.dashboard", "داشبورد"),
  ("nav.docs", "مستندات"),
  ("nav.sdk", "SDK ها"),
  ("nav.about", "درباره دنو"),
  ("nav.pricing", "قیمت‌گذاری"),
  ("nav.contact", "تماس"),
  ("nav.sign-in", "ورود"),
  ("nav.sign-up", "رایگان شروع کنید"),
  ("nav.request-demo", "درخواست دمو"),
  ("nav.discover", "کشف مکان‌ها"),
  ("footer.products", "محصولات"),
  ("footer.developers", "توسعه‌دهندگان"),
  ("footer.resources", "منابع"),
  ("footer.description", "پلتفرم کشف مکان‌های جذاب با هوش مصنوعی که به شما کمک می‌کند مکان‌های فوق‌العاده اطرافتان را پیدا کنید. رستوران‌ها، کافه‌ها، جاذبه‌ها و گنجینه‌های پنهان را با توصیه‌های هوشمند کشف کنید."),
  ("footer.company", "ساخته شده توسط"),
  ("footer.company-desc", "دنو یک پلتفرم نوآورانه کشف مکان است که برای انقلاب در نحوه کشف محیط اطراف مردم طراحی شده است."),
  ("footer.privacy", "سیاست حریم خصوصی"),
  ("footer.terms", "شرایط استفاده"),
  ("footer.copyright", "تمام حقوق محفوظ است."),
  ("home.hero.title", "مکان‌های فوق‌العاده اطرافتان را کشف کنید"),
  ("home.hero.subtitle", "بهترین رستوران‌ها، کافه‌ها، جاذبه‌ها و گنجینه‌های پنهان منطقه خود را با توصیه‌های هوشمند پیدا کنید."),
  ("home.hero.cta", "شروع کاوش"),
  ("home.hero.learn-more", "بیشتر بدانید"),
  ("home.features.title", "چرا دنو را انتخاب کنید؟"),
  ("home.features.discovery.title", "کشف هوشمند"),
  ("home.features.discovery.desc", "توصیه‌های هوشمند بر اساس ترجیحات و موقعیت شما."),
  ("home.features.local.title", "تخصص محلی"),
  ("home.features.local.desc", "گنجینه‌های پنهان و علاقه‌مندی‌های محلی که گردشگران از دست می‌دهند را کشف کنید."),
  ("home.features.reviews.title", "نقدهای واقعی"),
  ("home.features.reviews.desc", "نقدهای معتبر از افراد واقعی که آنجا بوده‌اند بخوانید."),
  ("about.hero.title", "درباره دنو"),
  ("about.hero.subtitle", "ما نحوه کشف مکان‌های فوق‌العاده توسط مردم را متحول می‌کنیم."),
  ("about.mission.title", "ماموریت ما"),
  ("about.mission.desc", "کمک به مردم برای کشف بهترین مکان‌های اطرافشان از طریق توصیه‌های هوشمند و بینش‌های محلی."),
  ("about.vision.title", "چشم‌انداز ما"),
  ("about.vision.desc", "جهانی که در آن همه بتوانند به راحتی بهترین تجربیات منطقه خود را پیدا کنند و از آن لذت ببرند."),
  ("contact.hero.title", "تماس با ما"),
  ("contact.hero.subtitle", "سوال یا نظری دارید؟ دوست داریم از شما بشنویم."),
  ("contact.form.name", "نام شما"),
  ("contact.form.email", "آدرس ایمیل"),
  ("contact.form.message", "پیام"),
  ("contact.form.submit", "ارسال پیام"),
  ("privacy.title", "سیاست حریم خصوصی"),
  ("privacy.intro", "حریم خصوصی شما برای ما مهم است. این سیاست توضیح می‌دهد که چگونه اطلاعات شما را جمع‌آوری، استفاده و محافظت می‌کنیم."),
  ("privacy.collection.title", "اطلاعاتی که جمع‌آوری می‌کنیم"),
  ("privacy.collection.desc", "ما اطلاعاتی که مستقیماً به ما ارائه می‌دهید و اطلاعاتی که هنگام استفاده از سرویس ما به طور خودکار جمع‌آوری می‌شود را جمع‌آوری می‌کنیم."),
  ("privacy.use.title", "نحوه استفاده از اطلاعات شما"),
  ("privacy.use.desc", "ما از اطلاعات شما برای ارائه، نگهداری و بهبود خدماتمان استفاده می‌کنیم."),
  ("terms.title", "شرایط استفاده"),
  ("terms.intro", "این شرایط استفاده از سرویس ما را تنظیم می‌کند. با استفاده از دنو، شما با این شرایط موافقت می‌کنید."),
  ("terms.acceptance.title", "پذیرش شرایط"),
  ("terms.acceptance.desc", "با دسترسی یا استفاده از سرویس ما، شما با این شرایط موافقت می‌کنید."),
  ("terms.use.title", "استفاده از سرویس"),
  ("terms.use.desc", "شما می‌توانید از سرویس ما فقط برای اهداف قانونی و مطابق با این شرایط استفاده کنید.")
]

/-- Catalog table of LanguageManager.loadTranslations: the literal
two-language mapping built once at startup. -/
def loadTranslations : List (String × List (String × String)) :=
  [("en", enTable), ("fa", faTable)]

/-- Catalog of a language code; `none` when the language is unsupported. -/
def getCatalog (lang : String) : Option (List (String × String)) :=
  lookupAssoc loadTranslations lang

/-- Child node of a translatable element's subtree: a text node, a Font
Awesome icon element (`i.fas`, `i.far`, `i.fab`), or another element
carrying its own child nodes — so icons can occur at any depth, as
matched by `element.querySelectorAll('i.fas, i.far, i.fab')`. -/
inductive ChildNode where
  | text (content : String)
  | icon
  | elem (children : List ChildNode)
  deriving Repr

mutual
/-- Decidable equality of child nodes. -/
def decEqNode : (a b : ChildNode) → Decidable (a = b)
  | ChildNode.text x, ChildNode.text y =>
    match String.decEq x y with
    | isTrue h => isTrue (by rw [h])
    | isFalse h => isFalse (by intro hc; cases hc; exact h rfl)
  | ChildNode.text _, ChildNode.icon => isFalse (by intro h; cases h)
  | ChildNode.text _, ChildNode.elem _ => isFalse (by intro h; cases h)
  | ChildNode.icon, ChildNode.text _ => isFalse (by intro h; cases h)
  | ChildNode.icon, ChildNode.icon => isTrue rfl
  | ChildNode.icon, ChildNode.elem _ => isFalse (by intro h; cases h)
  | ChildNode.elem _, ChildNode.text _ => isFalse (by intro h; cases h)
  | ChildNode.elem _, ChildNode.icon => isFalse (by intro h; cases h)
  | ChildNode.elem a, ChildNode.elem b =>
    match decEqNodeList a b with
    | isTrue h => isTrue (by rw [h])
    | isFalse h => isFalse (by intro hc; cases hc; exact h rfl)

/-- Decidable equality of child-node lists. -/
def decEqNodeList : (a b : List ChildNode) → Decidable (a = b)
  | [], [] => isTrue rfl
  | [], _ :: _ => isFalse (by intro h; cases h)
  | _ :: _, [] => isFalse (by intro h; cases h)
  | a :: as, b :: bs =>
    match decEqNode a b, decEqNodeList as bs with
    | isTrue h1, isTrue h2 => isTrue (by rw [h1, h2])
    | isFalse h1, _ => isFalse (by intro hc; injection hc with hh ht; exact h1 hh)
    | isTrue _, isFalse h2 => isFalse (by intro hc; injection hc with hh ht; exact h2 ht)
end

instance : DecidableEq ChildNode := decEqNode

/-- Kind of translatable element distinguished by translatePage. -/
inductive ElemKind where
  | inputText
  | inputEmail
  | textarea
  | generic
  deriving Repr, DecidableEq

/-- Translatable element: its kind, its `data-lang` attribute value, its
placeholder (meaningful for inputs) and its child nodes (meaningful for
generic elements). -/
structure Element where
  kind : ElemKind
  dataLang : String
  placeholder : String
  children : List ChildNode
  deriving Repr, DecidableEq

/-- Icon test on one node (the node itself, not its descendants). -/
def isIcon : ChildNode → Bool
  | ChildNode.icon => true
  | _ => false

/-- Test for the direct-child text nodes removed by translatePage:
`node.nodeType === 3 && node.textContent.trim()`. -/
def isRemovableText : ChildNode → Bool
  | ChildNode.text s => decide (jsTrim s ≠ "")
  | _ => false

mutual
/-- Presence of an icon element anywhere in one node's subtree. -/
def nodeHasIcon : ChildNode → Bool
  | ChildNode.text _ => false
  | ChildNode.icon => true
  | ChildNode.elem cs => hasIconDescendant cs

/-- Result of `element.querySelectorAll('i.fas, i.far, i.fab').length > 0`:
an icon element occurs anywhere in the forest, not only among the direct
children. -/
def hasIconDescendant : List ChildNode → Bool
  | [] => false
  | n :: rest => nodeHasIcon n || hasIconDescendant rest
end

mutual
/-- Search of one node's subtree for the first icon in document order;
`some b` reports whether that icon has no previous sibling.  `isFirst`
says whether the node itself is the first child of its parent. -/
def nodeFirstIconNoPrev : Bool → ChildNode → Option Bool
  | isFirst, ChildNode.icon => some isFirst
  | _, ChildNode.text _ => none
  | _, ChildNode.elem cs => firstIconNoPrev true cs

/-- JS `icons[0].previousSibling === null` over a sibling list: locate the
first icon of the forest in document order and report whether it is the
first child of its parent. -/
def firstIconNoPrev : Bool → List ChildNode → Option Bool
  | _, [] => none
  | isFirst, n :: rest =>
    match nodeFirstIconNoPrev isFirst n with
    | some b => some b
    | none => firstIconNoPrev false rest
end

mutual
/-- Descend into an element node to place a text node right after the last
icon of its subtree. -/
def nodeInsertAfterLastIcon (t : String) : ChildNode → ChildNode
  | ChildNode.elem cs => ChildNode.elem (insertTextAfterLastIcon t cs)
  | n => n

/-- JS `icons[icons.length - 1].insertAdjacentText('afterend', translation)`:
insert a text node as the next sibling of the last icon in document order,
inside that icon's own parent element. -/
def insertTextAfterLastIcon (t : String) : List ChildNode → List ChildNode
  | [] => [ChildNode.text t]
  | n :: rest =>
    if hasIconDescendant rest then n :: insertTextAfterLastIcon t rest
    else
      match n with
      | ChildNode.icon => ChildNode.icon :: ChildNode.text t :: rest
      | ChildNode.elem cs => nodeInsertAfterLastIcon t (ChildNode.elem cs) :: rest
      | ChildNode.text s => ChildNode.text s :: insertTextAfterLastIcon t rest
end

/-- JS `element.insertBefore(document.createTextNode(translation), icons[0])`:
insert before the first icon when that icon is a direct child of the
element; `none` models the DOM NotFoundError thrown when the first icon in
document order is nested inside another child element (and the no-icon
call, which the guarding branch never makes). -/
def insertTextBeforeFirstIcon (t : String) : List ChildNode → Option (List ChildNode)
  | [] => none
  | ChildNode.icon :: rest => some (ChildNode.text t :: ChildNode.icon :: rest)
  | ChildNode.text s :: rest =>
    (insertTextBeforeFirstIcon t rest).map (fun l => ChildNode.text s :: l)
  | ChildNode.elem cs :: rest =>
    if hasIconDescendant cs then none
    else (insertTextBeforeFirstIcon t rest).map (fun l => ChildNode.elem cs :: l)

/-- Head of the child list is an icon: the first-icon-has-no-previous-
sibling test specialised to child lists whose icons are all direct
children. -/
def headIsIcon : List ChildNode → Bool
  | ChildNode.icon :: _ => true
  | _ => false

/-- Direct-child insertion after the last icon: the behaviour of
insertTextAfterLastIcon on child lists whose icons are all direct children;
used by the proofs and by the specification-literal definition. -/
def insertAfterLastIcon (t : String) : List ChildNode → List ChildNode
  | [] => [ChildNode.text t]
  | n :: rest =>
    if isIcon n ∧ ¬ (rest.any isIcon = true) then n :: ChildNode.text t :: rest
    else n :: insertAfterLastIcon t rest

/-- Direct-child insertion before the first icon. -/
def insertBeforeFirstIcon (t : String) : List ChildNode → List ChildNode
  | [] => [ChildNode.text t]
  | n :: rest =>
    if isIcon n then ChildNode.text t :: n :: rest
    else n :: insertBeforeFirstIcon t rest

/-- No icon of the subtree is nested inside a child element — all icons are
direct children.  On such child lists the subtree icon search coincides
with the direct-child icon test. -/
def noNestedIcons : List ChildNode → Bool
  | [] => true
  | ChildNode.elem cs :: rest => !hasIconDescendant cs && noNestedIcons rest
  | _ :: rest => noNestedIcons rest

/-- Replacement of a generic element's children by translatePage when a
truthy translation `t` was found, paired with a thrown-DOM-exception flag:
with icons anywhere in the subtree, the non-empty direct text-node children
are removed, then `t` is inserted after the last icon when the first icon
has no previous sibling, and otherwise inserted before the first icon —
which throws (flag `true`, the text nodes stay removed) when that icon is
not a direct child of the element; with no icons at all,
`element.textContent = t` replaces the whole subtree by one text node.  The
`none` arm of the first-icon search is unreachable, because the text-node
filter never removes an icon. -/
def translateChildren (t : String) (children : List ChildNode) : List ChildNode × Bool :=
  if hasIconDescendant children then
    let kept := children.filter (fun n => !isRemovableText n)
    match firstIconNoPrev true kept with
    | some true => (insertTextAfterLastIcon t kept, false)
    | some false =>
      match insertTextBeforeFirstIcon t kept with
      | some cs => (cs, false)
      | none => (kept, true)
    | none => (kept, true)
  else ([ChildNode.text t], false)

/-- Direct-child specialisation of translateChildren: no exception, flat
insertion.  Equal to the faithful version on child lists satisfying
noNestedIcons (the equivalence is proved below); the idempotence and
preservation proofs go through this form. -/
def translateChildrenDirect (t : String) (children : List ChildNode) : List ChildNode :=
  if children.any isIcon then
    let kept := children.filter (fun n => !isRemovableText n)
    if headIsIcon kept then insertAfterLastIcon t kept
    else insertBeforeFirstIcon t kept
  else [ChildNode.text t]

/-- Action of LanguageManager.translatePage on one element carrying the
`data-lang` attribute, for the active language's catalog `tbl`, paired with
the thrown-exception flag. -/
def translateElementRun (tbl : List (String × String)) (e : Element) : Element × Bool :=
  match lookupAssoc tbl e.dataLang with
  | none => (e, false)
  | some t =>
    if t = "" then (e, false)
    else
      match e.kind with
      | ElemKind.inputText => ({ e with placeholder := t }, false)
      | ElemKind.inputEmail => ({ e with placeholder := t }, false)
      | ElemKind.textarea => ({ e with placeholder := t }, false)
      | ElemKind.generic =>
        let r := translateChildren t e.children
        ({ e with children := r.1 }, r.2)

/-- Element state after the per-element action of the translation pass (the
DOM mutations made before a thrown exception persist). -/
def translateElement (tbl : List (String × String)) (e : Element) : Element :=
  (translateElementRun tbl e).1

/-- LanguageManager.translatePage over the whole document, modelled as the
list of elements carrying the `data-lang` attribute, with exception
propagation: elements are processed in order, and a DOM exception in one
element aborts the forEach, leaving the remaining elements untouched. -/
def translatePageRun (tbl : List (String × String)) : List Element → List Element × Bool
  | [] => ([], false)
  | e :: rest =>
    let r := translateElementRun tbl e
    if r.2 then (r.1 :: rest, true)
    else
      let rs := translatePageRun tbl rest
      (r.1 :: rs.1, rs.2)

/-- Document state after translatePage (a thrown exception propagates to
the caller; the mutations made before it persist). -/
def translatePage (tbl : List (String × String)) (doc : List Element) : List Element :=
  (translatePageRun tbl doc).1

/-- LanguageManager.getTranslation: the catalog entry for the active
language, or the raw key when the entry is absent or falsy (JS `... || key`). -/
def getTranslation (tbl : List (String × String)) (key : String) : String :=
  match lookupAssoc tbl key with
  | none => key
  | some t => if t = "" then key else t

/-- Mutable state of the LanguageManager singleton together with the pieces
of browser state it writes: persisted preference, document language
attribute, canonical-link `lang` parameter, and the rendered document. -/
structure LMState where
  currentLanguage : String
  storedLanguage : String
  documentLang : String
  canonicalLang : Option String
  doc : List Element
  deriving Repr, DecidableEq

/-- LanguageManager.updateMetaTags: set the canonical link's `lang` query
parameter for a non-default language, delete it for `'en'`. -/
def updateMetaTags (st : LMState) : LMState :=
  if st.currentLanguage ≠ "en" then { st with canonicalLang := some st.currentLanguage }
  else { st with canonicalLang := none }

/-- LanguageManager.setLanguage: an unsupported code produces only a console
warning; a supported code updates the active language, persists it, updates
the document language attribute and canonical link, and re-translates the
page.  The second component is the list of warnings emitted. -/
def setLanguage (lang : String) (st : LMState) : LMState × List String :=
  match getCatalog lang with
  | none => (st, ["Language " ++ lang ++ " not supported"])
  | some tbl =>
    let st1 := { st with currentLanguage := lang, storedLanguage := lang }
    let st2 := { st1 with documentLang := lang }
    let st3 := updateMetaTags st2
    ({ st3 with doc := translatePage tbl st3.doc }, [])

/-- Browser signals read by the LanguageManager constructor. -/
structure LMEnv where
  urlLang : String
  storedLanguage : String
  navigatorLanguages : List String
  navigatorLanguage : String
  timezone : String
  deriving Repr, DecidableEq

/-- LanguageManager.getLanguageFromURL: the `lang` query parameter when it
names a supported language, otherwise null (modelled as `""`). -/
def getLanguageFromURL (env : LMEnv) : String :=
  if env.urlLang ≠ "" ∧ (getCatalog env.urlLang).isSome then env.urlLang else ""

/-- LanguageManager.getStoredLanguage: the raw localStorage value, with no
support check. -/
def getStoredLanguage (env : LMEnv) : String := env.storedLanguage

/-- Scan of `navigator.languages` for the first supported primary subtag. -/
def firstSupportedLanguage : List String → Option String
  | [] => none
  | l :: rest =>
    if (getCatalog (primarySubtag l)).isSome then some (primarySubtag l)
    else firstSupportedLanguage rest

/-- LanguageManager.detectBrowserLanguage: the stored preference when
supported, then the navigator language list, then `navigator.language`,
then the Iran timezone heuristic, then `'en'`. -/
def detectBrowserLanguage (env : LMEnv) : String :=
  if env.storedLanguage ≠ "" ∧ (getCatalog env.storedLanguage).isSome then
    env.storedLanguage
  else
    match firstSupportedLanguage env.navigatorLanguages with
    | some l => l
    | none =>
      if env.navigatorLanguage ≠ "" ∧
          (getCatalog (primarySubtag env.navigatorLanguage)).isSome then
        primarySubtag env.navigatorLanguage
      else if env.timezone = "Asia/Tehran" then "fa"
      else "en"

/-- JS truthiness-based `a || b` on strings. -/
def jsOr (a b : String) : String := if a ≠ "" then a else b

/-- Language selected by the LanguageManager constructor:
`this.getLanguageFromURL() || this.getStoredLanguage() ||
this.detectBrowserLanguage()`. -/
def constructorLanguage (env : LMEnv) : String :=
  jsOr (getLanguageFromURL env) (jsOr (getStoredLanguage env) (detectBrowserLanguage env))

/-- Translation-insertion rule as worded by the specification sentence for
icon-bearing elements: the translation goes before the first icon, or after
the last icon when the icons are the element's first children, read as the
original child list beginning with an icon. -/
def translateChildrenSpec (t : String) (children : List ChildNode) : List ChildNode :=
  if children.any isIcon then
    let kept := children.filter (fun n => !isRemovableText n)
    if headIsIcon children then insertAfterLastIcon t kept
    else insertBeforeFirstIcon t kept
  else [ChildNode.text t]

end Denu

namespace Denu

/-- Anchor element as seen by the link-rewriting scan: the `flutter-link`
class marker, the `data-flutter-path` and `href` attributes (`""` when
absent), the processed marker `data-env-redirect-setup`, the number of
attached click handlers, and the `target` and `rel` attributes. -/
structure FlutterLink where
  isFlutterLink : Bool
  dataFlutterPath : String
  href : String
  setup : Bool
  handlers : Nat
  target : String
  rel : String
  deriving Repr, DecidableEq

/-- State owned by the EnvironmentRedirect instance: the `isSetup` flag and
the anchors of the current document. -/
structure ERState where
  isSetup : Bool
  links : List FlutterLink
  deriving Repr, DecidableEq

/-- Drop everything up to and including the first `//` of a URL. -/
def dropToAuthority : List Char → List Char
  | [] => []
  | '/' :: '/' :: rest => rest
  | _ :: rest => dropToAuthority rest

/-- Take the authority characters up to the first `:`, `/`, `?` or `#`. -/
def takeHostname : List Char → List Char
  | [] => []
  | c :: rest =>
    if c = ':' ∨ c = '/' ∨ c = '?' ∨ c = '#' then []
    else c :: takeHostname rest

/-- Hostname of an absolute URL, modelling the `hostname` property of an
anchor whose `href` was just assigned an absolute URL. -/
def urlHostname (url : String) : String :=
  String.mk (takeHostname (dropToAuthority url.data))

/-- Route path of an anchor:
`link.getAttribute('data-flutter-path') || link.getAttribute('href') || '/'`. -/
def linkRoutePath (l : FlutterLink) : String :=
  jsOr l.dataFlutterPath (jsOr l.href "/")

/-- Processing of one freshly selected anchor inside setupFlutterLinks:
assign the computed URL, force a new-tab target with a noopener relation for
cross-host destinations, attach a click handler, and set the processed
marker. -/
def processLink (bs : BrowserState) (l : FlutterLink) : FlutterLink :=
  let newUrl := getFlutterUrl bs (linkRoutePath l)
  let l1 := { l with href := newUrl }
  let l2 :=
    if urlHostname newUrl ≠ bs.hostname then
      { l1 with target := "_blank",
                rel := if l1.rel ≠ "" then l1.rel ++ " noopener" else "noopener" }
    else l1
  { l2 with handlers := l2.handlers + 1, setup := true }

/-- Selection test of the scan's query
`a.flutter-link:not([data-env-redirect-setup])`. -/
def selectedByScan (l : FlutterLink) : Bool := l.isFlutterLink && !l.setup

/-- EnvironmentRedirect.setupFlutterLinks: skipped entirely while `isSetup`
is set; otherwise processes every still-unmarked flutter link and records
`isSetup` exactly when at least one was found. -/
def setupFlutterLinks (bs : BrowserState) (st : ERState) : ERState :=
  if st.isSetup then st
  else
    { isSetup := st.links.any selectedByScan,
      links := st.links.map (fun l => if selectedByScan l then processLink bs l else l) }

/-- EnvironmentRedirect.refreshFlutterLinks: recompute the destination of
every already-processed flutter link in place (also the handler of the
`languageChanged` event). -/
def refreshFlutterLinks (bs : BrowserState) (st : ERState) : ERState :=
  { st with links := st.links.map (fun l =>
      if l.isFlutterLink && l.setup then
        { l with href := getFlutterUrl bs (linkRoutePath l) }
      else l) }

/-- Handler of the `partialsLoaded` event: clear the processed marker of
every marked flutter link, reset `isSetup`, re-run the scan, then refresh. -/
def handlePartialsLoaded (bs : BrowserState) (st : ERState) : ERState :=
  let cleared : ERState :=
    { isSetup := false,
      links := st.links.map (fun l =>
        if l.isFlutterLink && l.setup then { l with setup := false } else l) }
  refreshFlutterLinks bs (setupFlutterLinks bs cleared)

end Denu

namespace Denu

/-- Root domain as worded by the claim under verification: the last two
dot-separated labels of the hostname, with no exception. -/
def lastTwoLabels (host : String) : String :=
  let parts := splitDot host
  joinDot (parts.drop (parts.length - 2))

/-- Browser state with every optional signal absent. -/
def bs0 : BrowserState :=
  { hostname := "", port := "", protocol := "",
    searchFlutterOrigin := "", searchFlutterPort := "", searchLang := "",
    windowFlutterLocalOrigin := "", storageFlutterLocalOrigin := "",
    metaFlutterLocalOrigin := "", lmCurrentLanguage := "", storageLanguage := "" }

/-- Page served at `https://dev.denu.dev`. -/
def bsDevDenu : BrowserState := { bs0 with hostname := "dev.denu.dev", protocol := "https:" }

/-- Page served at `https://denu.dev` with active language `fa`. -/
def bsDenuFa : BrowserState :=
  { bs0 with hostname := "denu.dev", protocol := "https:", lmCurrentLanguage := "fa" }

/-- Page served at `https://denu.dev` with active language `en`. -/
def bsDenuEn : BrowserState :=
  { bs0 with hostname := "denu.dev", protocol := "https:", lmCurrentLanguage := "en" }

/-- Page served at a bare IPv4 address. -/
def bsIp : BrowserState := { bs0 with hostname := "192.168.1.5", protocol := "https:" }

/-- Page served at `http://localhost:3000` with no overrides. -/
def bsLocal3000 : BrowserState :=
  { bs0 with hostname := "localhost", port := "3000", protocol := "http:" }

/-- Page served at `http://localhost:3000` with a window-global override. -/
def bsLocalOverride : BrowserState :=
  { bsLocal3000 with windowFlutterLocalOrigin := "http://localhost:56899" }

/-- Generic element whose key is absent from every catalog. -/
def eMissing : Element :=
  { kind := ElemKind.generic, dataLang := "nav.missing", placeholder := "",
    children := [ChildNode.text "Hello"] }

/-- Generic element with a leading text node followed by an icon. -/
def eIconAfter : Element :=
  { kind := ElemKind.generic, dataLang := "nav.home", placeholder := "",
    children := [ChildNode.text "Hello", ChildNode.icon] }

/-- Generic element whose icon is preceded by a non-text child. -/
def eIconMid : Element :=
  { kind := ElemKind.generic, dataLang := "nav.contact", placeholder := "",
    children := [ChildNode.elem [], ChildNode.text "Contact", ChildNode.icon] }

/-- Generic element whose only icon is nested inside a wrapper child
element (a span-wrapped icon). -/
def eNested : Element :=
  { kind := ElemKind.generic, dataLang := "nav.home", placeholder := "",
    children := [ChildNode.elem [ChildNode.icon]] }

/-- Small document used by concrete witnesses. -/
def docW : List Element :=
  [eIconAfter, eIconMid,
   { kind := ElemKind.inputText, dataLang := "contact.form.name", placeholder := "",
     children := [] },
   { kind := ElemKind.generic, dataLang := "nav.about", placeholder := "",
     children := [ChildNode.text "About"] }]

/-- LanguageManager state used by concrete witnesses. -/
def lmSt0 : LMState :=
  { currentLanguage := "en", storedLanguage := "en", documentLang := "en",
    canonicalLang := none, doc := docW }

/-- Constructor signals with an unsupported persisted language and a
supported browser language. -/
def envDe : LMEnv :=
  { urlLang := "", storedLanguage := "de", navigatorLanguages := ["en"],
    navigatorLanguage := "", timezone := "UTC" }

/-- Constructor signals with no persisted language. -/
def envNoStored : LMEnv :=
  { urlLang := "", storedLanguage := "", navigatorLanguages := ["fa-IR"],
    navigatorLanguage := "", timezone := "UTC" }

/-- Already-processed anchor whose target-path attribute was changed. -/
def lkW : FlutterLink :=
  { isFlutterLink := true, dataFlutterPath := "/profile", href := "https://app.denu.dev/discover",
    setup := true, handlers := 1, target := "", rel := "" }

/-- Link-resolver state holding the single anchor above. -/
def stW : ERState := { isSetup := true, links := [lkW] }

end Denu

namespace Denu

/-- Appending two character-list strings concatenates their data. -/
theorem mk_append (a b : List Char) : String.mk a ++ String.mk b = String.mk (a ++ b) := rfl

/-- The dot-splitter never returns an empty list. -/
theorem splitDotAux_ne_nil (l : List Char) : ∀ acc, splitDotAux acc l ≠ [] := by
  induction l with
  | nil => intro acc; simp [splitDotAux]
  | cons c rest ih =>
    intro acc
    by_cases h : c = '.'
    · simp [splitDotAux, h]
    · simpa [splitDotAux, h] using ih (c :: acc)

/-- Unfolding lemma for joinDot on a list with at least two entries. -/
theorem joinDot_cons_of_ne_nil (s : String) (l : List String) (h : l ≠ []) :
    joinDot (s :: l) = s ++ "." ++ joinDot l := by
  cases l with
  | nil => exact absurd rfl h
  | cons a t => rfl

/-- Joining what splitting produced restores the original characters. -/
theorem joinDot_splitDotAux (l : List Char) :
    ∀ acc, joinDot (splitDotAux acc l) = String.mk (acc.reverse ++ l) := by
  induction l with
  | nil => intro acc; simp [splitDotAux, joinDot]
  | cons c rest ih =>
    intro acc
    by_cases h : c = '.'
    · have h1 : splitDotAux acc (c :: rest) = String.mk acc.reverse :: splitDotAux [] rest := by
        simp [splitDotAux, h]
      rw [h1, joinDot_cons_of_ne_nil _ _ (splitDotAux_ne_nil rest []), ih []]
      subst h
      rw [show ("." : String) = String.mk ['.'] from rfl, mk_append, mk_append]
      simp
    · have h1 : splitDotAux acc (c :: rest) = splitDotAux (c :: acc) rest := by
        simp [splitDotAux, h]
      rw [h1, ih (c :: acc)]
      simp

/-- Splitting on dots and joining with dots is the identity. -/
theorem joinDot_splitDot (s : String) : joinDot (splitDot s) = s := by
  simpa [splitDot] using joinDot_splitDotAux s.data []

/-- On hostnames of at most two labels, the last two labels are the whole
hostname. -/
theorem lastTwoLabels_of_le (host : String) (h : (splitDot host).length ≤ 2) :
    lastTwoLabels host = host := by
  have h0 : (splitDot host).length - 2 = 0 := Nat.sub_eq_zero_of_le h
  simp [lastTwoLabels, h0, joinDot_splitDot]

/-- Except for `localhost` and bare IPv4 addresses, the computed root domain
is the last two dot-separated labels of the hostname. -/
theorem getRootDomain_eq_lastTwoLabels (bs : BrowserState)
    (h1 : bs.hostname ≠ "localhost") (h2 : isIPv4 bs.hostname = false) :
    getRootDomain bs = lastTwoLabels bs.hostname := by
  unfold getRootDomain
  have hor : ¬ (bs.hostname = "localhost" ∨ isIPv4 bs.hostname) := by
    rintro (h | h)
    · exact h1 h
    · rw [h2] at h; cases h
  rw [if_neg hor]
  by_cases hlen : (splitDot bs.hostname).length ≤ 2
  · rw [if_pos hlen, lastTwoLabels_of_le _ hlen]
  · rw [if_neg hlen]
    rfl

end Denu

namespace Denu

/-- The detected environment is local exactly for the two local hostnames. -/
theorem detectEnvironment_local_iff (bs : BrowserState) :
    detectEnvironment bs = "local" ↔
      (bs.hostname = "localhost" ∨ bs.hostname = "127.0.0.1") := by
  simp only [detectEnvironment]
  split_ifs with h1 h2 h3 h4
  · simp [h1]
  · exact iff_of_false (by decide) h1
  · exact iff_of_false (by decide) h1
  · exact iff_of_false (by decide) h1
  · exact iff_of_false (by decide) h1

/-- Only a hostname starting with `dev.` detects as dev. -/
theorem detectEnvironment_dev_only (bs : BrowserState) :
    detectEnvironment bs = "dev" → strStartsWith bs.hostname "dev." = true := by
  simp only [detectEnvironment]
  split_ifs with h1 h2 h3 h4 <;> intro h
  · exact absurd h (by decide)
  · exact h2
  · exact absurd h (by decide)
  · exact absurd h (by decide)
  · exact absurd h (by decide)

/-- Only a hostname starting with `qa.` detects as qa. -/
theorem detectEnvironment_qa_only (bs : BrowserState) :
    detectEnvironment bs = "qa" → strStartsWith bs.hostname "qa." = true := by
  simp only [detectEnvironment]
  split_ifs with h1 h2 h3 h4 <;> intro h
  · exact absurd h (by decide)
  · exact absurd h (by decide)
  · exact h3
  · exact absurd h (by decide)
  · exact absurd h (by decide)

/-- Only a hostname starting with `uat.` detects as uat. -/
theorem detectEnvironment_uat_only (bs : BrowserState) :
    detectEnvironment bs = "uat" → strStartsWith bs.hostname "uat." = true := by
  simp only [detectEnvironment]
  split_ifs with h1 h2 h3 h4 <;> intro h
  · exact absurd h (by decide)
  · exact absurd h (by decide)
  · exact absurd h (by decide)
  · exact h4
  · exact absurd h (by decide)

/-- Every hostname matching none of the special cases detects as prod. -/
theorem detectEnvironment_prod (bs : BrowserState) :
    ¬ (bs.hostname = "localhost" ∨ bs.hostname = "127.0.0.1") →
    strStartsWith bs.hostname "dev." = false →
    strStartsWith bs.hostname "qa." = false →
    strStartsWith bs.hostname "uat." = false →
    detectEnvironment bs = "prod" := by
  intro h1 hd hq hu
  simp only [detectEnvironment]
  rw [if_neg h1, if_neg (by simp [hd]), if_neg (by simp [hq]), if_neg (by simp [hu])]

/-- Environment detection always lands in one of the five tiers. -/
theorem detectEnvironment_cases (bs : BrowserState) :
    detectEnvironment bs = "local" ∨ detectEnvironment bs = "dev" ∨
      detectEnvironment bs = "qa" ∨ detectEnvironment bs = "uat" ∨
      detectEnvironment bs = "prod" := by
  simp only [detectEnvironment]
  split_ifs <;> tauto

/-- Claim C10: environment detection is total with prod as the catch-all —
local exactly for the hostnames localhost and 127.0.0.1, the dev/qa/uat
tiers only for the matching hostname start, everything else prod; in
particular a bare IPv4 hostname resolves to prod with the full IP as root
domain and companion base URL `https://app.<ip>`. -/
theorem environment_total_prod_catchall (bs : BrowserState) :
    (detectEnvironment bs = "local" ∨ detectEnvironment bs = "dev" ∨
      detectEnvironment bs = "qa" ∨ detectEnvironment bs = "uat" ∨
      detectEnvironment bs = "prod")
    ∧ (detectEnvironment bs = "local" ↔
        (bs.hostname = "localhost" ∨ bs.hostname = "127.0.0.1"))
    ∧ (detectEnvironment bs = "dev" → strStartsWith bs.hostname "dev." = true)
    ∧ (detectEnvironment bs = "qa" → strStartsWith bs.hostname "qa." = true)
    ∧ (detectEnvironment bs = "uat" → strStartsWith bs.hostname "uat." = true)
    ∧ (¬ (bs.hostname = "localhost" ∨ bs.hostname = "127.0.0.1") →
        strStartsWith bs.hostname "dev." = false →
        strStartsWith bs.hostname "qa." = false →
        strStartsWith bs.hostname "uat." = false →
        detectEnvironment bs = "prod")
    ∧ detectEnvironment bsIp = "prod"
    ∧ getRootDomain bsIp = "192.168.1.5"
    ∧ getFlutterBase bsIp = "https://app.192.168.1.5" :=
  ⟨detectEnvironment_cases bs, detectEnvironment_local_iff bs,
   detectEnvironment_dev_only bs, detectEnvironment_qa_only bs,
   detectEnvironment_uat_only bs, detectEnvironment_prod bs,
   by decide, by decide, by decide⟩

/-- Witness of environment_total_prod_catchall at a concrete hostname. -/
theorem environment_total_prod_catchall_witness :
    detectEnvironment bsLocal3000 = "local" :=
  (environment_total_prod_catchall bsLocal3000).2.1.mpr (Or.inl rfl)

/-- Counterexample to claim C3 as stated: at the non-local (prod) hostname
192.168.1.5 the code's base URL uses the full IP as root domain, not the
last two dot-separated labels demanded by the claim. -/
theorem base_url_root_domain_counterexample :
    detectEnvironment bsIp = "prod"
    ∧ lastTwoLabels bsIp.hostname = "1.5"
    ∧ getFlutterBase bsIp = "https://app.192.168.1.5"
    ∧ getFlutterBase bsIp ≠ "https://" ++ "app." ++ lastTwoLabels bsIp.hostname := by
  decide

/-- Claim C3 (amended): in every non-local environment the base URL is
`https://<prefix>app.<root-domain>` with prefix empty for prod and
`<env>.` otherwise, where the root domain is the code's getRootDomain —
equal to the last two labels of the hostname except for `localhost` and
bare IPv4 addresses, which keep the full hostname; the two concrete
examples of the claim hold. -/
theorem base_url_nonlocal (bs : BrowserState) :
    (detectEnvironment bs ≠ "local" →
      getFlutterBase bs =
        "https://" ++ (if detectEnvironment bs = "prod" then ""
          else detectEnvironment bs ++ ".") ++ "app." ++ getRootDomain bs)
    ∧ (bs.hostname ≠ "localhost" → isIPv4 bs.hostname = false →
        getRootDomain bs = lastTwoLabels bs.hostname)
    ∧ detectEnvironment bsDevDenu = "dev"
    ∧ getRootDomain bsDevDenu = "denu.dev"
    ∧ getFlutterBase bsDevDenu = "https://dev.app.denu.dev"
    ∧ detectEnvironment bsDenuEn = "prod"
    ∧ getFlutterBase bsDenuEn = "https://app.denu.dev" := by
  refine ⟨?_, fun h1 h2 => getRootDomain_eq_lastTwoLabels bs h1 h2,
    by decide, by decide, by decide, by decide, by decide⟩
  intro hne
  simp only [getFlutterBase, getFlutterBaseWithLog]
  rw [if_neg hne]

/-- Witness of base_url_nonlocal at a concrete non-local hostname. -/
theorem base_url_nonlocal_witness :
    getFlutterBase bsIp =
      "https://" ++ (if detectEnvironment bsIp = "prod" then ""
        else detectEnvironment bsIp ++ ".") ++ "app." ++ getRootDomain bsIp :=
  (base_url_nonlocal bsIp).1 (by decide)

end Denu

namespace Denu

/-- Claim C5: in the local environment, the override is resolved in the
exact order window global → storage → meta tag → origin parameter → port
parameter with the first present value winning; with no override present
and a conventional port the base URL is the same-origin URL and the
diagnostic warning is emitted, so localhost:3000 with no overrides resolves
to `http://localhost:3000`. -/
theorem local_base_resolution (bs : BrowserState) :
    (bs.windowFlutterLocalOrigin ≠ "" →
      getLocalOverrideOriginSync bs = some bs.windowFlutterLocalOrigin)
    ∧ (bs.windowFlutterLocalOrigin = "" → bs.storageFlutterLocalOrigin ≠ "" →
      getLocalOverrideOriginSync bs = some bs.storageFlutterLocalOrigin)
    ∧ (bs.windowFlutterLocalOrigin = "" → bs.storageFlutterLocalOrigin = "" →
      bs.metaFlutterLocalOrigin ≠ "" →
      getLocalOverrideOriginSync bs = some bs.metaFlutterLocalOrigin)
    ∧ (bs.windowFlutterLocalOrigin = "" → bs.storageFlutterLocalOrigin = "" →
      bs.metaFlutterLocalOrigin = "" → bs.searchFlutterOrigin ≠ "" →
      getLocalOverrideOriginSync bs = some bs.searchFlutterOrigin)
    ∧ (bs.windowFlutterLocalOrigin = "" → bs.storageFlutterLocalOrigin = "" →
      bs.metaFlutterLocalOrigin = "" → bs.searchFlutterOrigin = "" →
      bs.searchFlutterPort ≠ "" →
      getLocalOverrideOriginSync bs =
        some (bs.protocol ++ "//localhost:" ++ bs.searchFlutterPort))
    ∧ (detectEnvironment bs = "local" → getLocalOverrideOriginSync bs = none →
        conventionalPorts.contains bs.port = true →
        getFlutterBase bs = sameOrigin bs ∧
        "[EnvironmentRedirect] No Flutter origin configured for local development!"
          ∈ (getFlutterBaseWithLog bs).2)
    ∧ getLocalOverrideOriginSync bsLocal3000 = none
    ∧ getFlutterBase bsLocal3000 = "http://localhost:3000" := by
  refine ⟨?_, ?_, ?_, ?_, ?_, ?_, by decide, by decide⟩
  · intro h1
    simp only [getLocalOverrideOriginSync]
    rw [if_pos h1]
  · intro h1 h2
    simp only [getLocalOverrideOriginSync]
    rw [if_neg (by simp [h1]), if_pos h2]
  · intro h1 h2 h3
    simp only [getLocalOverrideOriginSync]
    rw [if_neg (by simp [h1]), if_neg (by simp [h2]), if_pos h3]
  · intro h1 h2 h3 h4
    simp only [getLocalOverrideOriginSync]
    rw [if_neg (by simp [h1]), if_neg (by simp [h2]), if_neg (by simp [h3]), if_pos h4]
  · intro h1 h2 h3 h4 h5
    simp only [getLocalOverrideOriginSync]
    rw [if_neg (by simp [h1]), if_neg (by simp [h2]), if_neg (by simp [h3]),
      if_neg (by simp [h4]), if_pos h5]
  · intro henv hnone hport
    have hmem : bs.port ∈ conventionalPorts := by simpa using hport
    have hcond : ¬ (¬ bs.port = "" ∧ bs.port ∉ conventionalPorts) := by
      rintro ⟨hp, hc⟩
      exact hc hmem
    constructor
    · simp only [getFlutterBase, getFlutterBaseWithLog, henv, hnone]
      simp [hcond]
    · simp only [getFlutterBaseWithLog, henv, hnone]
      simp [hcond]

/-- Witness of local_base_resolution: a window-global override wins. -/
theorem local_base_resolution_witness :
    getLocalOverrideOriginSync bsLocalOverride = some "http://localhost:56899" :=
  (local_base_resolution bsLocalOverride).1 (by decide)

/-- The current language reported by getCurrentLanguage is never the empty
string. -/
theorem getCurrentLanguage_ne_empty (bs : BrowserState) :
    getCurrentLanguage bs ≠ "" := by
  unfold getCurrentLanguage
  split_ifs with h1 h2 h3
  · exact h1
  · exact h2
  · exact h3
  · decide

/-- Claim C4: the computed target URL carries a `lang=<code>` query
parameter exactly when the active language differs from the default `en`;
with active language `fa` and path `/discover` the result is
`<base>/discover?lang=fa`, and with `en` the parameter is omitted. -/
theorem flutter_url_lang_param (bs : BrowserState) (p : String) :
    getCurrentLanguage bs ≠ ""
    ∧ (getCurrentLanguage bs ≠ "en" →
        getFlutterUrl bs p =
          getFlutterBase bs ++ normalizedRoutePath p ++
            (if strContainsChar (getFlutterBase bs ++ normalizedRoutePath p) '?'
              then "&" else "?") ++ "lang=" ++ getCurrentLanguage bs)
    ∧ (getCurrentLanguage bs = "en" →
        getFlutterUrl bs p = getFlutterBase bs ++ normalizedRoutePath p)
    ∧ getFlutterUrl bsDenuFa "/discover" = "https://app.denu.dev/discover?lang=fa"
    ∧ getFlutterUrl bsDenuEn "/discover" = "https://app.denu.dev/discover" := by
  refine ⟨getCurrentLanguage_ne_empty bs, ?_, ?_, by decide, by decide⟩
  · intro hne
    simp only [getFlutterUrl]
    rw [if_pos ⟨getCurrentLanguage_ne_empty bs, hne⟩]
  · intro he
    simp only [getFlutterUrl]
    rw [if_neg (by simp [he])]

/-- Witness of flutter_url_lang_param for a non-default active language. -/
theorem flutter_url_lang_param_witness :
    getFlutterUrl bsDenuFa "/discover" =
      getFlutterBase bsDenuFa ++ normalizedRoutePath "/discover" ++
        (if strContainsChar (getFlutterBase bsDenuFa ++ normalizedRoutePath "/discover") '?'
          then "&" else "?") ++ "lang=" ++ getCurrentLanguage bsDenuFa :=
  (flutter_url_lang_param bsDenuFa "/discover").2.1 (by decide)

end Denu

namespace Denu

/-- Counterexample to claim C1 as stated: for a key absent from the active
catalog the translation pass leaves the element's previous content in
place — it does not make the element render the literal key string. -/
theorem translation_missing_key_counterexample :
    lookupAssoc enTable "nav.missing" = none
    ∧ translateElement enTable eMissing = eMissing
    ∧ eMissing.children ≠ [ChildNode.text "nav.missing"] := by decide

/-- Claim C1 (amended): for a key absent from the catalog the translation
pass leaves every element carrying that key unchanged (keeping its previous
rendered content, whatever it was), while the translation lookup returns
the raw key string. -/
theorem translation_missing_key_fallback (tbl : List (String × String)) (k : String)
    (h : lookupAssoc tbl k = none) :
    (∀ e : Element, e.dataLang = k → translateElement tbl e = e)
    ∧ getTranslation tbl k = k := by
  constructor
  · intro e he
    simp [translateElement, translateElementRun, he, h]
  · unfold getTranslation
    rw [h]

/-- Witness of translation_missing_key_fallback at the English catalog. -/
theorem translation_missing_key_fallback_witness :
    translateElement enTable eMissing = eMissing
    ∧ getTranslation enTable "nav.missing" = "nav.missing" :=
  ⟨(translation_missing_key_fallback enTable "nav.missing" (by decide)).1 eMissing rfl,
   (translation_missing_key_fallback enTable "nav.missing" (by decide)).2⟩

/-- Counterexample to claim C2 as stated: with no URL parameter and the
unsupported persisted value "de", the constructor selects "de" as the
active language instead of skipping it in favour of the supported browser
language "en". -/
theorem stored_language_counterexample :
    getLanguageFromURL envDe = ""
    ∧ getCatalog "de" = none
    ∧ constructorLanguage envDe = "de"
    ∧ detectBrowserLanguage envDe = "en" := by decide

/-- Claim C2 (amended): when no valid URL parameter is present, a non-empty
persisted value is always selected as the active language, supported or
not; the later signals of the precedence chain are consulted exactly when
the persisted value is absent. -/
theorem stored_language_resolution (env : LMEnv)
    (h : getLanguageFromURL env = "") :
    (env.storedLanguage ≠ "" → constructorLanguage env = env.storedLanguage)
    ∧ (env.storedLanguage = "" → constructorLanguage env = detectBrowserLanguage env) := by
  constructor
  · intro hs
    simp [constructorLanguage, jsOr, getStoredLanguage, h, hs]
  · intro hs
    simp [constructorLanguage, jsOr, getStoredLanguage, h, hs]

/-- Witness of stored_language_resolution at the unsupported stored value. -/
theorem stored_language_resolution_witness :
    constructorLanguage envDe = "de" :=
  (stored_language_resolution envDe (by decide)).1 (by decide)

/-- Claim C9: setting an unsupported language emits only the diagnostic
message and changes no state — active language, persisted preference,
document language attribute, canonical link and rendered document are all
untouched. -/
theorem set_language_unsupported_noop (lang : String) (st : LMState)
    (h : getCatalog lang = none) :
    setLanguage lang st = (st, ["Language " ++ lang ++ " not supported"]) := by
  unfold setLanguage
  rw [h]

/-- Witness of set_language_unsupported_noop at the unsupported code "de". -/
theorem set_language_unsupported_noop_witness :
    setLanguage "de" lmSt0 = (lmSt0, ["Language de not supported"]) :=
  set_language_unsupported_noop "de" lmSt0 (by decide)

end Denu

namespace Denu

/-- A text node whose content has non-empty trim is removable. -/
theorem isRemovableText_text_of_trim (t : String) (ht : jsTrim t ≠ "") :
    isRemovableText (ChildNode.text t) = true := by
  simpa [isRemovableText] using ht

/-- An icon child is never a removable text node. -/
theorem isRemovableText_icon_eq : isRemovableText ChildNode.icon = false := rfl

/-- A text node is never an icon. -/
theorem isIcon_text (s : String) : isIcon (ChildNode.text s) = false := rfl

/-- A nested element child is never an icon. -/
theorem isIcon_elem (cs : List ChildNode) : isIcon (ChildNode.elem cs) = false := rfl

/-- Filtering out the removable text nodes twice equals filtering once. -/
theorem filter_keep_idem (l : List ChildNode) :
    (l.filter (fun n => !isRemovableText n)).filter (fun n => !isRemovableText n)
      = l.filter (fun n => !isRemovableText n) := by
  induction l with
  | nil => rfl
  | cons n rest ih =>
    by_cases h : isRemovableText n
    · simp [List.filter_cons, h, ih]
    · simp [List.filter_cons, h, ih]

/-- Removing text nodes does not change whether a direct icon child exists. -/
theorem any_isIcon_filter (l : List ChildNode) :
    (l.filter (fun n => !isRemovableText n)).any isIcon = l.any isIcon := by
  induction l with
  | nil => rfl
  | cons n rest ih =>
    simp only [List.filter_cons]
    split_ifs with h
    · simp only [List.any_cons, ih]
    · have hn : isIcon n = false := by
        cases n with
        | text s => rfl
        | icon => exact absurd rfl h
        | elem cs => exact absurd rfl h
      simp only [List.any_cons, ih, hn, Bool.false_or]

/-- The direct-child after-insertion does not change whether a direct icon
child exists. -/
theorem any_isIcon_insertAfter (t : String) (l : List ChildNode) :
    (insertAfterLastIcon t l).any isIcon = l.any isIcon := by
  induction l with
  | nil => rfl
  | cons n rest ih =>
    simp only [insertAfterLastIcon]
    split_ifs with h
    · simp only [List.any_cons, isIcon_text, Bool.false_or]
    · simp only [List.any_cons, ih]

/-- The direct-child before-insertion does not change whether a direct icon
child exists. -/
theorem any_isIcon_insertBefore (t : String) (l : List ChildNode) :
    (insertBeforeFirstIcon t l).any isIcon = l.any isIcon := by
  induction l with
  | nil => rfl
  | cons n rest ih =>
    simp only [insertBeforeFirstIcon]
    split_ifs with h
    · simp only [List.any_cons, isIcon_text, Bool.false_or]
    · simp only [List.any_cons, ih]

/-- An icon-valued child is the icon constructor. -/
theorem eq_icon_of_isIcon (n : ChildNode) (h : isIcon n = true) : n = ChildNode.icon := by
  cases n with
  | text s => cases h
  | icon => rfl
  | elem cs => cases h

/-- Removing the removable text nodes of a direct-child after-insertion of
a removable text gives back the filtered list. -/
theorem filter_insertAfter (t : String) (ht : isRemovableText (ChildNode.text t) = true)
    (l : List ChildNode) :
    (insertAfterLastIcon t l).filter (fun n => !isRemovableText n)
      = l.filter (fun n => !isRemovableText n) := by
  induction l with
  | nil => simp [insertAfterLastIcon, List.filter_cons, ht]
  | cons n rest ih =>
    simp only [insertAfterLastIcon]
    split_ifs with h
    · have hn : n = ChildNode.icon := eq_icon_of_isIcon n h.1
      subst hn
      simp [List.filter_cons, ht, isRemovableText_icon_eq]
    · simp [List.filter_cons, ih]

/-- Removing the removable text nodes of a direct-child before-insertion of
a removable text gives back the filtered list. -/
theorem filter_insertBefore (t : String) (ht : isRemovableText (ChildNode.text t) = true)
    (l : List ChildNode) :
    (insertBeforeFirstIcon t l).filter (fun n => !isRemovableText n)
      = l.filter (fun n => !isRemovableText n) := by
  induction l with
  | nil => simp [insertBeforeFirstIcon, List.filter_cons, ht]
  | cons n rest ih =>
    simp only [insertBeforeFirstIcon]
    split_ifs with h
    · have hn : n = ChildNode.icon := eq_icon_of_isIcon n h
      subst hn
      simp [List.filter_cons, ht, isRemovableText_icon_eq]
    · simp [List.filter_cons, ih]

/-- The direct-child replacement of a generic element's children is
idempotent for a translation with non-empty trim. -/
theorem translateChildrenDirect_idem (t : String) (ht : jsTrim t ≠ "") (cs : List ChildNode) :
    translateChildrenDirect t (translateChildrenDirect t cs) = translateChildrenDirect t cs := by
  have htr : isRemovableText (ChildNode.text t) = true := isRemovableText_text_of_trim t ht
  by_cases hic : cs.any isIcon = true
  · by_cases hh : headIsIcon (cs.filter (fun n => !isRemovableText n)) = true
    · have h1 : translateChildrenDirect t cs
          = insertAfterLastIcon t (cs.filter (fun n => !isRemovableText n)) := by
        unfold translateChildrenDirect
        rw [if_pos hic, if_pos hh]
      rw [h1]
      have hic2 : (insertAfterLastIcon t (cs.filter (fun n => !isRemovableText n))).any
          isIcon = true := by
        rw [any_isIcon_insertAfter, any_isIcon_filter]
        exact hic
      have hfil : (insertAfterLastIcon t (cs.filter (fun n => !isRemovableText n))).filter
          (fun n => !isRemovableText n) = cs.filter (fun n => !isRemovableText n) := by
        rw [filter_insertAfter t htr, filter_keep_idem]
      unfold translateChildrenDirect
      rw [if_pos hic2, hfil, if_pos hh]
    · have h1 : translateChildrenDirect t cs
          = insertBeforeFirstIcon t (cs.filter (fun n => !isRemovableText n)) := by
        unfold translateChildrenDirect
        rw [if_pos hic, if_neg hh]
      rw [h1]
      have hic2 : (insertBeforeFirstIcon t (cs.filter (fun n => !isRemovableText n))).any
          isIcon = true := by
        rw [any_isIcon_insertBefore, any_isIcon_filter]
        exact hic
      have hfil : (insertBeforeFirstIcon t (cs.filter (fun n => !isRemovableText n))).filter
          (fun n => !isRemovableText n) = cs.filter (fun n => !isRemovableText n) := by
        rw [filter_insertBefore t htr, filter_keep_idem]
      unfold translateChildrenDirect
      rw [if_pos hic2, hfil, if_neg hh]
  · have h1 : translateChildrenDirect t cs = [ChildNode.text t] := by
      unfold translateChildrenDirect
      rw [if_neg hic]
    rw [h1]
    have hic2 : ¬ [ChildNode.text t].any isIcon = true := by
      simp [isIcon]
    unfold translateChildrenDirect
    rw [if_neg hic2]

/-- Filtering to icons ignores the removal of removable text nodes. -/
theorem filter_isIcon_keep (l : List ChildNode) :
    (l.filter (fun n => !isRemovableText n)).filter isIcon = l.filter isIcon := by
  induction l with
  | nil => rfl
  | cons n rest ih =>
    by_cases hkeep : (!isRemovableText n) = true
    · simp only [List.filter_cons, if_pos hkeep, ih]
    · have hn : isIcon n = false := by
        cases n with
        | text s => rfl
        | icon => exact absurd rfl hkeep
        | elem cs => exact absurd rfl hkeep
      simp only [List.filter_cons, if_neg hkeep, ih]
      rw [if_neg (by simp [hn])]

/-- Filtering to icons ignores a direct-child after-insertion of text. -/
theorem filter_isIcon_insertAfter (t : String) (l : List ChildNode) :
    (insertAfterLastIcon t l).filter isIcon = l.filter isIcon := by
  induction l with
  | nil => rfl
  | cons n rest ih =>
    simp only [insertAfterLastIcon]
    split_ifs with h
    · have hn : n = ChildNode.icon := eq_icon_of_isIcon n h.1
      subst hn
      simp [List.filter_cons, isIcon]
    · simp only [List.filter_cons, ih]

/-- Filtering to icons ignores a direct-child before-insertion of text. -/
theorem filter_isIcon_insertBefore (t : String) (l : List ChildNode) :
    (insertBeforeFirstIcon t l).filter isIcon = l.filter isIcon := by
  induction l with
  | nil => rfl
  | cons n rest ih =>
    simp only [insertBeforeFirstIcon]
    split_ifs with h
    · have hn : n = ChildNode.icon := eq_icon_of_isIcon n h
      subst hn
      simp [List.filter_cons, isIcon]
    · simp only [List.filter_cons, ih]

/-- Every node of the original list survives a direct-child
after-insertion, in order. -/
theorem sublist_insertAfter (t : String) (l : List ChildNode) :
    List.Sublist l (insertAfterLastIcon t l) := by
  induction l with
  | nil => exact List.nil_sublist _
  | cons n rest ih =>
    simp only [insertAfterLastIcon]
    split_ifs with h
    · exact List.Sublist.cons₂ n (List.Sublist.cons _ (List.Sublist.refl rest))
    · exact List.Sublist.cons₂ n ih

/-- Every node of the original list survives a direct-child
before-insertion, in order. -/
theorem sublist_insertBefore (t : String) (l : List ChildNode) :
    List.Sublist l (insertBeforeFirstIcon t l) := by
  induction l with
  | nil => exact List.nil_sublist _
  | cons n rest ih =>
    simp only [insertBeforeFirstIcon]
    split_ifs with h
    · exact List.Sublist.cons _ (List.Sublist.refl _)
    · exact List.Sublist.cons₂ n ih

end Denu

namespace Denu

/-- Dropping the head preserves the all-icons-direct condition. -/
theorem noNestedIcons_tail (n : ChildNode) (rest : List ChildNode)
    (h : noNestedIcons (n :: rest) = true) : noNestedIcons rest = true := by
  cases n with
  | text s => simpa [noNestedIcons] using h
  | icon => simpa [noNestedIcons] using h
  | elem cs =>
    have h2 : hasIconDescendant cs = false ∧ noNestedIcons rest = true := by
      simpa [noNestedIcons] using h
    exact h2.2

/-- A nested element child of an all-icons-direct list is icon-free. -/
theorem noNestedIcons_head_elem (cs : List ChildNode) (rest : List ChildNode)
    (h : noNestedIcons (ChildNode.elem cs :: rest) = true) :
    hasIconDescendant cs = false := by
  have h2 : hasIconDescendant cs = false ∧ noNestedIcons rest = true := by
    simpa [noNestedIcons] using h
  exact h2.1

mutual
/-- A node whose subtree is icon-free yields no first-icon search result. -/
theorem nodeFirstIconNoPrev_none : (n : ChildNode) → nodeHasIcon n = false →
    ∀ b, nodeFirstIconNoPrev b n = none
  | ChildNode.text _, _, _ => rfl
  | ChildNode.icon, h, _ => by cases h
  | ChildNode.elem cs, h, b => by
    have hcs : hasIconDescendant cs = false := by simpa [nodeHasIcon] using h
    simpa [nodeFirstIconNoPrev] using firstIconNoPrev_none cs hcs true

/-- An icon-free forest yields no first-icon search result. -/
theorem firstIconNoPrev_none : (l : List ChildNode) → hasIconDescendant l = false →
    ∀ b, firstIconNoPrev b l = none
  | [], _, _ => rfl
  | n :: rest, h, b => by
    have h2 : nodeHasIcon n = false ∧ hasIconDescendant rest = false := by
      simpa [hasIconDescendant] using h
    have hn := nodeFirstIconNoPrev_none n h2.1 b
    have hr := firstIconNoPrev_none rest h2.2 false
    simp [firstIconNoPrev, hn, hr]
end

/-- Under the all-icons-direct condition, the subtree icon search equals
the direct-child icon test. -/
theorem hasIconDescendant_eq_any (l : List ChildNode) (h : noNestedIcons l = true) :
    hasIconDescendant l = l.any isIcon := by
  induction l with
  | nil => rfl
  | cons n rest ih =>
    have hr := noNestedIcons_tail n rest h
    cases n with
    | text s => simp [hasIconDescendant, nodeHasIcon, List.any_cons, isIcon_text, ih hr]
    | icon => simp [hasIconDescendant, nodeHasIcon, List.any_cons, isIcon]
    | elem cs =>
      have hcs := noNestedIcons_head_elem cs rest h
      simp [hasIconDescendant, nodeHasIcon, List.any_cons, isIcon_elem, hcs, ih hr]

/-- Under the all-icons-direct condition with some icon present, the
first-icon search reports the incoming first-position flag conjoined with
the head of the list being an icon. -/
theorem firstIconNoPrev_eq_head (l : List ChildNode) (hnn : noNestedIcons l = true)
    (hic : l.any isIcon = true) :
    ∀ b, firstIconNoPrev b l = some (b && headIsIcon l) := by
  induction l with
  | nil => cases hic
  | cons n rest ih =>
    intro b
    cases n with
    | icon => simp [firstIconNoPrev, nodeFirstIconNoPrev, headIsIcon]
    | text s =>
      have hr := noNestedIcons_tail (ChildNode.text s) rest hnn
      have hicr : rest.any isIcon = true := by simpa [isIcon_text] using hic
      simp [firstIconNoPrev, nodeFirstIconNoPrev, headIsIcon, ih hr hicr false]
    | elem cs =>
      have hr := noNestedIcons_tail (ChildNode.elem cs) rest hnn
      have hcs := noNestedIcons_head_elem cs rest hnn
      have hicr : rest.any isIcon = true := by simpa [isIcon_elem] using hic
      have hnone : firstIconNoPrev true cs = none := firstIconNoPrev_none cs hcs true
      simp [firstIconNoPrev, nodeFirstIconNoPrev, hnone, headIsIcon, ih hr hicr false]

/-- Under the all-icons-direct condition with some icon present, the
faithful after-last-icon insertion coincides with the direct-child one. -/
theorem insertTextAfterLastIcon_eq (t : String) (l : List ChildNode)
    (hnn : noNestedIcons l = true) (hic : l.any isIcon = true) :
    insertTextAfterLastIcon t l = insertAfterLastIcon t l := by
  induction l with
  | nil => cases hic
  | cons n rest ih =>
    have hr := noNestedIcons_tail n rest hnn
    by_cases hra : rest.any isIcon = true
    · have hidr : hasIconDescendant rest = true := by
        rw [hasIconDescendant_eq_any rest hr]
        exact hra
      rw [insertTextAfterLastIcon.eq_def, insertAfterLastIcon.eq_def]
      simp only []
      rw [if_pos hidr, if_neg (by simp [hra]), ih hr hra]
    · have hidr : hasIconDescendant rest = false := by
        rw [hasIconDescendant_eq_any rest hr]
        simpa using hra
      cases n with
      | icon =>
        rw [insertTextAfterLastIcon.eq_def, insertAfterLastIcon.eq_def]
        simp only []
        rw [if_neg (by simp [hidr]), if_pos ⟨rfl, hra⟩]
      | text s => simp [isIcon_text, hra] at hic
      | elem cs => simp [isIcon_elem, hra] at hic

/-- Under the all-icons-direct condition with some icon present, the
faithful before-first-icon insertion succeeds with the direct-child one. -/
theorem insertTextBeforeFirstIcon_eq (t : String) (l : List ChildNode)
    (hnn : noNestedIcons l = true) (hic : l.any isIcon = true) :
    insertTextBeforeFirstIcon t l = some (insertBeforeFirstIcon t l) := by
  induction l with
  | nil => cases hic
  | cons n rest ih =>
    have hr := noNestedIcons_tail n rest hnn
    cases n with
    | icon =>
      have hflat : insertBeforeFirstIcon t (ChildNode.icon :: rest)
          = ChildNode.text t :: ChildNode.icon :: rest := rfl
      simp only [insertTextBeforeFirstIcon]
      rw [hflat]
    | text s =>
      have hicr : rest.any isIcon = true := by simpa [isIcon_text] using hic
      have hflat : insertBeforeFirstIcon t (ChildNode.text s :: rest)
          = ChildNode.text s :: insertBeforeFirstIcon t rest := by
        simp only [insertBeforeFirstIcon]
        rw [if_neg (by simp [isIcon_text])]
      rw [hflat]
      simp only [insertTextBeforeFirstIcon]
      rw [ih hr hicr]
      rfl
    | elem cs =>
      have hicr : rest.any isIcon = true := by simpa [isIcon_elem] using hic
      have hcs := noNestedIcons_head_elem cs rest hnn
      have hflat : insertBeforeFirstIcon t (ChildNode.elem cs :: rest)
          = ChildNode.elem cs :: insertBeforeFirstIcon t rest := by
        simp only [insertBeforeFirstIcon]
        rw [if_neg (by simp [isIcon_elem])]
      rw [hflat]
      simp only [insertTextBeforeFirstIcon]
      rw [if_neg (by simp [hcs]), ih hr hicr]
      rfl

/-- Removing text nodes preserves the all-icons-direct condition. -/
theorem noNestedIcons_filter (l : List ChildNode) (h : noNestedIcons l = true) :
    noNestedIcons (l.filter (fun n => !isRemovableText n)) = true := by
  induction l with
  | nil => rfl
  | cons n rest ih =>
    have hr := noNestedIcons_tail n rest h
    cases n with
    | text s =>
      by_cases hk : (!isRemovableText (ChildNode.text s)) = true
      · simp only [List.filter_cons, if_pos hk]
        simpa [noNestedIcons] using ih hr
      · simp only [List.filter_cons, if_neg hk]
        exact ih hr
    | icon =>
      simp only [List.filter_cons, isRemovableText_icon_eq]
      simpa [noNestedIcons] using ih hr
    | elem cs =>
      have hcs := noNestedIcons_head_elem cs rest h
      simp only [List.filter_cons]
      rw [if_pos (by simp [isRemovableText])]
      simp [noNestedIcons, hcs, ih hr]

/-- A direct-child after-insertion of text preserves the all-icons-direct
condition. -/
theorem noNestedIcons_insertAfter (t : String) (l : List ChildNode)
    (h : noNestedIcons l = true) :
    noNestedIcons (insertAfterLastIcon t l) = true := by
  induction l with
  | nil => simp [insertAfterLastIcon, noNestedIcons]
  | cons n rest ih =>
    have hr := noNestedIcons_tail n rest h
    simp only [insertAfterLastIcon]
    split_ifs with hcond
    · have hn : n = ChildNode.icon := eq_icon_of_isIcon n hcond.1
      subst hn
      simpa [noNestedIcons] using hr
    · cases n with
      | text s => simpa [noNestedIcons] using ih hr
      | icon => simpa [noNestedIcons] using ih hr
      | elem cs =>
        have hcs := noNestedIcons_head_elem cs rest h
        simp [noNestedIcons, hcs, ih hr]

/-- A direct-child before-insertion of text preserves the all-icons-direct
condition. -/
theorem noNestedIcons_insertBefore (t : String) (l : List ChildNode)
    (h : noNestedIcons l = true) :
    noNestedIcons (insertBeforeFirstIcon t l) = true := by
  induction l with
  | nil => simp [insertBeforeFirstIcon, noNestedIcons]
  | cons n rest ih =>
    have hr := noNestedIcons_tail n rest h
    simp only [insertBeforeFirstIcon]
    split_ifs with hcond
    · have hn : n = ChildNode.icon := eq_icon_of_isIcon n hcond
      subst hn
      simpa [noNestedIcons] using hr
    · cases n with
      | text s => simpa [noNestedIcons] using ih hr
      | icon => simpa [noNestedIcons] using ih hr
      | elem cs =>
        have hcs := noNestedIcons_head_elem cs rest h
        simp [noNestedIcons, hcs, ih hr]

/-- On all-icons-direct child lists the faithful children replacement
throws nothing and coincides with the direct-child specialisation. -/
theorem translateChildren_eq_direct (t : String) (cs : List ChildNode)
    (hnn : noNestedIcons cs = true) :
    translateChildren t cs = (translateChildrenDirect t cs, false) := by
  by_cases hic : cs.any isIcon = true
  · have hid : hasIconDescendant cs = true := by
      rw [hasIconDescendant_eq_any cs hnn]
      exact hic
    have hknn := noNestedIcons_filter cs hnn
    have hkic : (cs.filter (fun n => !isRemovableText n)).any isIcon = true := by
      rw [any_isIcon_filter]
      exact hic
    have hfip := firstIconNoPrev_eq_head _ hknn hkic true
    by_cases hh : headIsIcon (cs.filter (fun n => !isRemovableText n)) = true
    · have h3 := insertTextAfterLastIcon_eq t _ hknn hkic
      simp only [translateChildren, translateChildrenDirect]
      rw [if_pos hid, if_pos hic, hfip]
      simp [hh, h3]
    · have hh2 : headIsIcon (cs.filter (fun n => !isRemovableText n)) = false := by
        simpa using hh
      have h4 := insertTextBeforeFirstIcon_eq t _ hknn hkic
      simp only [translateChildren, translateChildrenDirect]
      rw [if_pos hid, if_pos hic, hfip]
      simp [hh2, h4]
  · have hid : ¬ hasIconDescendant cs = true := by
      rw [hasIconDescendant_eq_any cs hnn]
      exact hic
    simp only [translateChildren, translateChildrenDirect]
    rw [if_neg hid, if_neg hic]

/-- The direct-child children replacement preserves the all-icons-direct
condition. -/
theorem noNestedIcons_translateChildrenDirect (t : String) (cs : List ChildNode)
    (hnn : noNestedIcons cs = true) :
    noNestedIcons (translateChildrenDirect t cs) = true := by
  simp only [translateChildrenDirect]
  split_ifs with h1 h2
  · exact noNestedIcons_insertAfter t _ (noNestedIcons_filter cs hnn)
  · exact noNestedIcons_insertBefore t _ (noNestedIcons_filter cs hnn)
  · simp [noNestedIcons]

/-- On an all-icons-direct element the per-element action throws nothing. -/
theorem translateElementRun_eq (tbl : List (String × String)) (e : Element)
    (hnn : noNestedIcons e.children = true) :
    translateElementRun tbl e = (translateElement tbl e, false) := by
  cases hlook : lookupAssoc tbl e.dataLang with
  | none => simp [translateElementRun, translateElement, hlook]
  | some t =>
    by_cases hte : t = ""
    · simp [translateElementRun, translateElement, hlook, hte]
    · cases hk : e.kind <;>
        simp [translateElementRun, translateElement, hlook, hte, hk,
          translateChildren_eq_direct t e.children hnn]

/-- The per-element action preserves the all-icons-direct condition. -/
theorem noNestedIcons_translateElement (tbl : List (String × String)) (e : Element)
    (hnn : noNestedIcons e.children = true) :
    noNestedIcons (translateElement tbl e).children = true := by
  cases hlook : lookupAssoc tbl e.dataLang with
  | none => simpa [translateElement, translateElementRun, hlook] using hnn
  | some t =>
    by_cases hte : t = ""
    · simpa [translateElement, translateElementRun, hlook, hte] using hnn
    · cases hk : e.kind with
      | inputText => simpa [translateElement, translateElementRun, hlook, hte, hk] using hnn
      | inputEmail => simpa [translateElement, translateElementRun, hlook, hte, hk] using hnn
      | textarea => simpa [translateElement, translateElementRun, hlook, hte, hk] using hnn
      | generic =>
        simp [translateElement, translateElementRun, hlook, hte, hk,
          translateChildren_eq_direct t e.children hnn,
          noNestedIcons_translateChildrenDirect t e.children hnn]

/-- On an all-icons-direct element the per-element action is idempotent
when every catalog value has non-empty trim. -/
theorem translateElement_idem (tbl : List (String × String))
    (hval : ∀ k t, lookupAssoc tbl k = some t → jsTrim t ≠ "") (e : Element)
    (hnn : noNestedIcons e.children = true) :
    translateElement tbl (translateElement tbl e) = translateElement tbl e := by
  obtain ⟨kind, dl, ph, ch⟩ := e
  cases hlook : lookupAssoc tbl dl with
  | none =>
    have h1 : translateElement tbl ⟨kind, dl, ph, ch⟩ = ⟨kind, dl, ph, ch⟩ := by
      simp [translateElement, translateElementRun, hlook]
    rw [h1]
    exact h1
  | some t =>
    by_cases hte : t = ""
    · have h1 : translateElement tbl ⟨kind, dl, ph, ch⟩ = ⟨kind, dl, ph, ch⟩ := by
        simp [translateElement, translateElementRun, hlook, hte]
      rw [h1]
      exact h1
    · have hnnc : noNestedIcons ch = true := hnn
      cases kind with
      | inputText => simp [translateElement, translateElementRun, hlook, hte]
      | inputEmail => simp [translateElement, translateElementRun, hlook, hte]
      | textarea => simp [translateElement, translateElementRun, hlook, hte]
      | generic =>
        have hdir := translateChildren_eq_direct t ch hnnc
        have h1 : translateElement tbl ⟨ElemKind.generic, dl, ph, ch⟩
            = ⟨ElemKind.generic, dl, ph, translateChildrenDirect t ch⟩ := by
          simp [translateElement, translateElementRun, hlook, hdir, hte]
        rw [h1]
        have hnn2 : noNestedIcons (translateChildrenDirect t ch) = true :=
          noNestedIcons_translateChildrenDirect t ch hnnc
        have hdir2 := translateChildren_eq_direct t (translateChildrenDirect t ch) hnn2
        simp [translateElement, translateElementRun, hlook, hte, hdir2,
          translateChildrenDirect_idem t (hval dl t hlook) ch]

/-- On an all-icons-direct document the pass throws nothing and maps the
per-element action over the document. -/
theorem translatePageRun_eq (tbl : List (String × String)) (doc : List Element)
    (hnn : ∀ e ∈ doc, noNestedIcons e.children = true) :
    translatePageRun tbl doc = (doc.map (translateElement tbl), false) := by
  induction doc with
  | nil => rfl
  | cons e rest ih =>
    have h1 := translateElementRun_eq tbl e (hnn e (List.mem_cons_self e rest))
    have h2 := ih (fun x hx => hnn x (List.mem_cons_of_mem e hx))
    simp [translatePageRun, h1, h2]

end Denu

namespace Denu

/-- A successful association lookup comes from a member pair. -/
theorem lookupAssoc_mem {α : Type} (tbl : List (String × α)) (k : String) (v : α)
    (h : lookupAssoc tbl k = some v) : (k, v) ∈ tbl := by
  induction tbl with
  | nil => cases h
  | cons p rest ih =>
    simp only [lookupAssoc] at h
    split_ifs at h with hp
    · obtain rfl := Option.some.inj h
      have hpk : p = (k, p.2) := by
        rw [← hp]
      rw [hpk] at *
      exact List.mem_cons_self _ _
    · exact List.mem_cons_of_mem _ (ih h)

/-- The two catalogs of loadTranslations are the only ones returned. -/
theorem getCatalog_cases (lang : String) (tbl : List (String × String))
    (h : getCatalog lang = some tbl) : tbl = enTable ∨ tbl = faTable := by
  simp only [getCatalog, loadTranslations, lookupAssoc] at h
  split_ifs at h with h1 h2
  · exact Or.inl (Option.some.inj h).symm
  · exact Or.inr (Option.some.inj h).symm

set_option maxRecDepth 10000 in
/-- Every English catalog value trims to a non-empty string. -/
theorem enTable_values_trim :
    enTable.all (fun p => decide (jsTrim p.2 ≠ "")) = true := by decide

set_option maxRecDepth 10000 in
/-- Every Persian catalog value trims to a non-empty string. -/
theorem faTable_values_trim :
    faTable.all (fun p => decide (jsTrim p.2 ≠ "")) = true := by decide

/-- Every value of an actual language catalog trims to a non-empty string. -/
theorem catalog_values_trim (lang : String) (tbl : List (String × String))
    (h : getCatalog lang = some tbl) :
    ∀ k t, lookupAssoc tbl k = some t → jsTrim t ≠ "" := by
  intro k t hlk
  have hmem := lookupAssoc_mem tbl k t hlk
  rcases getCatalog_cases lang tbl h with rfl | rfl
  · exact of_decide_eq_true (List.all_eq_true.mp enTable_values_trim (k, t) hmem)
  · exact of_decide_eq_true (List.all_eq_true.mp faTable_values_trim (k, t) hmem)

set_option maxRecDepth 10000 in
/-- Counterexample to claim C7 as stated: for an element whose only icon is
nested inside a wrapper child (a span-wrapped icon), every run of the
translation pass appends the translation again inside the wrapper — after
the second run the element reads the translation twice — so the pass is not
idempotent over all document states. -/
theorem translate_page_nested_icon_counterexample :
    translatePage enTable [eNested]
      = [{ eNested with children := [ChildNode.elem [ChildNode.icon, ChildNode.text "Home"]] }]
    ∧ translatePage enTable (translatePage enTable [eNested])
      = [{ eNested with children :=
            [ChildNode.elem [ChildNode.icon, ChildNode.text "Home", ChildNode.text "Home"]] }]
    ∧ translatePage enTable (translatePage enTable [eNested])
      ≠ translatePage enTable [eNested] := by
  decide

/-- Claim C7 (amended): over every document whose translatable elements
carry icons only as direct children (no icon nested inside another child
element), the translation pass throws no DOM exception, and running it
twice in a row with no intervening state change yields the same document
text state as running it once — including icon-bearing elements and
placeholder-based inputs. -/
theorem translate_page_idempotent (lang : String) (tbl : List (String × String))
    (h : getCatalog lang = some tbl) (doc : List Element)
    (hnn : ∀ e ∈ doc, noNestedIcons e.children = true) :
    (translatePageRun tbl doc).2 = false
    ∧ translatePage tbl (translatePage tbl doc) = translatePage tbl doc := by
  have hval := catalog_values_trim lang tbl h
  have hrun := translatePageRun_eq tbl doc hnn
  constructor
  · rw [hrun]
  · have h1 : translatePage tbl doc = doc.map (translateElement tbl) := by
      unfold translatePage
      rw [hrun]
    have hnn2 : ∀ x ∈ doc.map (translateElement tbl), noNestedIcons x.children = true := by
      intro x hx
      obtain ⟨e, he, rfl⟩ := List.mem_map.mp hx
      exact noNestedIcons_translateElement tbl e (hnn e he)
    have h2 : translatePage tbl (doc.map (translateElement tbl))
        = (doc.map (translateElement tbl)).map (translateElement tbl) := by
      unfold translatePage
      rw [translatePageRun_eq tbl _ hnn2]
    rw [h1, h2, List.map_map]
    apply List.map_congr_left
    intro e he
    exact translateElement_idem tbl hval e (hnn e he)

/-- Witness of translate_page_idempotent on a concrete document. -/
theorem translate_page_idempotent_witness :
    (translatePageRun enTable docW).2 = false
    ∧ translatePage enTable (translatePage enTable docW) = translatePage enTable docW :=
  translate_page_idempotent "en" enTable rfl docW (by decide)

set_option maxRecDepth 10000 in
/-- Counterexample to claim C8 as stated: for an element whose icon is
preceded only by a non-empty text node, the icons are not the element's
first children, yet the code inserts the translation after the last icon
(because the previous-sibling check runs after text removal), not before
the first icon as the claim demands. -/
theorem icon_insertion_counterexample :
    lookupAssoc enTable "nav.home" = some "Home"
    ∧ (translateElement enTable eIconAfter).children
        = [ChildNode.icon, ChildNode.text "Home"]
    ∧ translateChildrenSpec "Home" eIconAfter.children
        = [ChildNode.text "Home", ChildNode.icon]
    ∧ (translateElement enTable eIconAfter).children
        ≠ translateChildrenSpec "Home" eIconAfter.children := by
  decide

/-- Claim C8 (amended): for a translatable generic element whose icons are
all direct children (none nested inside another child element) and a truthy
translation, the pass throws nothing and removes only the non-empty
text-node children; the translation is inserted after the last icon when,
once those text nodes are removed, no node precedes the first icon (in
particular when the icons are the element's first children), and before the
first icon otherwise; the icon elements are never removed or reordered, and
every non-removed child survives in order.  With a nested icon the code
instead inserts inside the nested wrapper or the insertion throws — see the
claim C7 counterexample. -/
theorem icon_preservation (tbl : List (String × String)) (e : Element) (t : String)
    (hk : e.kind = ElemKind.generic) (hlk : lookupAssoc tbl e.dataLang = some t)
    (ht : t ≠ "") (hnn : noNestedIcons e.children = true)
    (hic : e.children.any isIcon = true) :
    (translateElementRun tbl e).2 = false
    ∧ (headIsIcon (e.children.filter (fun n => !isRemovableText n)) = true →
        (translateElement tbl e).children
          = insertTextAfterLastIcon t (e.children.filter (fun n => !isRemovableText n)))
    ∧ (headIsIcon (e.children.filter (fun n => !isRemovableText n)) = false →
        insertTextBeforeFirstIcon t (e.children.filter (fun n => !isRemovableText n))
          = some ((translateElement tbl e).children))
    ∧ (translateElement tbl e).children.filter isIcon = e.children.filter isIcon
    ∧ List.Sublist (e.children.filter (fun n => !isRemovableText n))
        (translateElement tbl e).children := by
  have hdir := translateChildren_eq_direct t e.children hnn
  have hres : (translateElement tbl e).children = translateChildrenDirect t e.children := by
    simp [translateElement, translateElementRun, hlk, ht, hk, hdir]
  have hrun : (translateElementRun tbl e).2 = false := by
    simp [translateElementRun, hlk, ht, hk, hdir]
  have hknn := noNestedIcons_filter e.children hnn
  have hkic : (e.children.filter (fun n => !isRemovableText n)).any isIcon = true := by
    rw [any_isIcon_filter]
    exact hic
  have htc : translateChildrenDirect t e.children =
      (if headIsIcon (e.children.filter (fun n => !isRemovableText n)) = true
        then insertAfterLastIcon t (e.children.filter (fun n => !isRemovableText n))
        else insertBeforeFirstIcon t (e.children.filter (fun n => !isRemovableText n))) := by
    simp only [translateChildrenDirect]
    rw [if_pos hic]
  refine ⟨hrun, ?_, ?_, ?_, ?_⟩
  · intro hh
    rw [hres, htc, if_pos hh]
    exact (insertTextAfterLastIcon_eq t _ hknn hkic).symm
  · intro hh
    rw [hres, htc, if_neg (by simp [hh])]
    exact insertTextBeforeFirstIcon_eq t _ hknn hkic
  · rw [hres, htc]
    by_cases hh : headIsIcon (e.children.filter (fun n => !isRemovableText n)) = true
    · rw [if_pos hh, filter_isIcon_insertAfter, filter_isIcon_keep]
    · rw [if_neg hh, filter_isIcon_insertBefore, filter_isIcon_keep]
  · rw [hres, htc]
    by_cases hh : headIsIcon (e.children.filter (fun n => !isRemovableText n)) = true
    · rw [if_pos hh]
      exact sublist_insertAfter t _
    · rw [if_neg hh]
      exact sublist_insertBefore t _

set_option maxRecDepth 10000 in
/-- Witness of icon_preservation on a concrete icon-bearing element. -/
theorem icon_preservation_witness :
    (translateElementRun enTable eIconMid).2 = false
    ∧ (headIsIcon (eIconMid.children.filter (fun n => !isRemovableText n)) = true →
        (translateElement enTable eIconMid).children
          = insertTextAfterLastIcon "Contact Us"
              (eIconMid.children.filter (fun n => !isRemovableText n)))
    ∧ (headIsIcon (eIconMid.children.filter (fun n => !isRemovableText n)) = false →
        insertTextBeforeFirstIcon "Contact Us"
            (eIconMid.children.filter (fun n => !isRemovableText n))
          = some ((translateElement enTable eIconMid).children))
    ∧ (translateElement enTable eIconMid).children.filter isIcon
        = eIconMid.children.filter isIcon
    ∧ List.Sublist (eIconMid.children.filter (fun n => !isRemovableText n))
        (translateElement enTable eIconMid).children :=
  icon_preservation enTable eIconMid "Contact Us" rfl (by decide) (by decide)
    (by decide) (by decide)

end Denu

namespace Denu

/-- A marked anchor is not selected by the scan's query. -/
theorem selectedByScan_of_setup (l : FlutterLink) (h : l.setup = true) :
    selectedByScan l = false := by
  simp [selectedByScan, h]

/-- Processing a link does not change its target-path attribute. -/
theorem processLink_dataFlutterPath (bs : BrowserState) (x : FlutterLink) :
    (processLink bs x).dataFlutterPath = x.dataFlutterPath := by
  simp only [processLink]
  split_ifs <;> rfl

/-- Processing a link does not change its class marker. -/
theorem processLink_isFlutterLink (bs : BrowserState) (x : FlutterLink) :
    (processLink bs x).isFlutterLink = x.isFlutterLink := by
  simp only [processLink]
  split_ifs <;> rfl

/-- Processing a link always applies the processed marker. -/
theorem processLink_setup (bs : BrowserState) (x : FlutterLink) :
    (processLink bs x).setup = true := by
  simp only [processLink]

/-- Processing a link assigns the computed destination. -/
theorem processLink_href (bs : BrowserState) (x : FlutterLink) :
    (processLink bs x).href = getFlutterUrl bs (linkRoutePath x) := by
  simp only [processLink]
  split_ifs <;> rfl

/-- Processing a link attaches exactly one more click handler. -/
theorem processLink_handlers (bs : BrowserState) (x : FlutterLink) :
    (processLink bs x).handlers = x.handlers + 1 := by
  simp only [processLink]
  split_ifs <;> rfl

/-- Claim C6: the link-rewrite scan is idempotent — an anchor carrying the
processed marker is left completely untouched by any further scan (no
second rewrite, no second click handler) — and after a fragments-loaded
notification a previously-processed anchor with target-path attribute `p`
is rewritten to the URL computed from `p` and its marker is reapplied. -/
theorem link_scan_idempotent_and_reload (bs : BrowserState) (st : ERState)
    (i : Nat) (l : FlutterLink) (hl : st.links[i]? = some l) :
    (l.setup = true → (setupFlutterLinks bs st).links[i]? = some l)
    ∧ (l.setup = true → l.isFlutterLink = true → l.dataFlutterPath ≠ "" →
        ∃ l', (handlePartialsLoaded bs st).links[i]? = some l'
          ∧ l'.href = getFlutterUrl bs l.dataFlutterPath
          ∧ l'.setup = true) := by
  constructor
  · intro hs
    unfold setupFlutterLinks
    by_cases hset : st.isSetup = true
    · rw [if_pos hset]
      exact hl
    · rw [if_neg hset]
      simp only [List.getElem?_map, hl, Option.map_some]
      simp [selectedByScan_of_setup l hs]
  · intro hs hf hp
    have hcl : (st.links.map (fun x =>
        if x.isFlutterLink && x.setup then { x with setup := false } else x))[i]?
        = some { l with setup := false } := by
      rw [List.getElem?_map, hl]
      simp [hf, hs]
    have hsel : selectedByScan { l with setup := false } = true := by
      simp [selectedByScan, hf]
    have hsetup2 : (setupFlutterLinks bs { isSetup := false, links := st.links.map (fun x =>
        if x.isFlutterLink && x.setup then { x with setup := false } else x) }).links[i]?
        = some (processLink bs { l with setup := false }) := by
      unfold setupFlutterLinks
      rw [if_neg (by simp)]
      simp only [List.getElem?_map, hcl, Option.map_some]
      simp [hsel]
    have hfin : (handlePartialsLoaded bs st).links[i]?
        = some { processLink bs { l with setup := false } with
            href := getFlutterUrl bs (linkRoutePath (processLink bs { l with setup := false })) } := by
      simp only [handlePartialsLoaded, refreshFlutterLinks]
      rw [List.getElem?_map, hsetup2]
      simp [processLink_isFlutterLink, processLink_setup, hf]
    refine ⟨_, hfin, ?_, ?_⟩
    · show getFlutterUrl bs (linkRoutePath (processLink bs { l with setup := false }))
        = getFlutterUrl bs l.dataFlutterPath
      have hdp : (processLink bs { l with setup := false }).dataFlutterPath
          = l.dataFlutterPath := processLink_dataFlutterPath bs _
      rw [linkRoutePath, hdp, jsOr, if_pos hp]
    · show (processLink bs { l with setup := false }).setup = true
      exact processLink_setup bs _

/-- Witness of link_scan_idempotent_and_reload: a marked anchor survives a
re-scan unchanged. -/
theorem link_scan_idempotent_and_reload_witness :
    (setupFlutterLinks bsDenuEn stW).links[0]? = some lkW :=
  (link_scan_idempotent_and_reload bsDenuEn stW 0 lkW (by decide)).1 (by decide)

end Denu
